import Mathlib

/-!
Verification development for the `pdrm` reliability-simulation package
(`bess_model.py`, `pv_model.py`, `dist_sys_model.py`, `residential_model.py`,
`ceval_indices.py`).

Modelling conventions (shallow embedding):

* Python floats are modelled as `ℚ` (exact arithmetic); machine indices as `ℕ`.
* Randomness: the only uses of `np.random.uniform()` are
  (a) sojourn lengths `int(np.ceil(-np.log(u) / rate))` — for every positive
  rate this expression ranges over exactly the positive integers as `u` ranges
  over `(0,1)`, so a sojourn draw is modelled as `s k + 1` for an arbitrary
  stream `s : ℕ → ℕ`; and
  (b) the branch test `u > p_up` in the PV multi-state model, where the drawn
  uniform itself is modelled as a stream of rationals.
  Each call site gets its own stream; a family `ℕ → …` indexed by batch number
  models the global numpy stream advancing across convergence batches
  (histories are never reused between batches).
* numpy slice assignment `a[T:T+k] = scalar` silently clips the slice at the
  end of the buffer; this is modelled by a length-preserving masked rewrite.
  Slice assignment with an *array* right-hand side of length `k` raises a
  broadcast `ValueError` when the slice is clipped; this is modelled by an
  `Option` result that is `none` exactly when `T + k` exceeds the buffer.
* Fallible code paths (broadcast errors, `int(inf)` overflow from a division
  by a zero rate) are modelled with `Option`/`none`.
-/

/-! ### bess_model.bess_operation (BatteryDispatcher) -/

/-- Embedding of `bess_operation` (src/pdrm/bess_model.py, lines 40–97).
Returns `(net_load, bess_state_of_charge)` exactly as the source does. -/
def bess_operation (bess_power_limit bess_state_of_charge
    bess_state_of_charge_min bess_capacity load pv_system_output : ℚ) : ℚ × ℚ :=
  let excess_pv := pv_system_output - load
  if 0 < excess_pv then
    let charging_power := min excess_pv bess_power_limit
    let bess_acceptable_power_to_charge := (1 - bess_state_of_charge) * bess_capacity
    if charging_power < bess_acceptable_power_to_charge then
      (load - (pv_system_output - charging_power),
       bess_state_of_charge + charging_power / bess_capacity)
    else
      (load - (pv_system_output - bess_acceptable_power_to_charge), 1)
  else
    let discharging_power := min (-excess_pv) bess_power_limit
    let bess_available_power_to_discharge :=
      (bess_state_of_charge - bess_state_of_charge_min) * bess_capacity
    if discharging_power < bess_available_power_to_discharge then
      (load - discharging_power - pv_system_output,
       bess_state_of_charge - discharging_power / bess_capacity)
    else
      (load - bess_available_power_to_discharge - pv_system_output,
       bess_state_of_charge_min)

/-! ### Theorems for C1 -/

/-- C1: for every call to `bess_operation` with `capacity > 0`,
`power_limit ≥ 0`, `0 ≤ soc_min ≤ 1` and an input state of charge
`soc ∈ [soc_min, 1]`, the returned new state of charge lies in
`[soc_min, 1]`. -/
theorem bess_operation_soc_mem (plimit soc socMin cap load pv : ℚ)
    (hcap : 0 < cap) (hpl : 0 ≤ plimit) (hmin0 : 0 ≤ socMin) (hmin1 : socMin ≤ 1)
    (hsoc : socMin ≤ soc) (hsoc1 : soc ≤ 1) :
    socMin ≤ (bess_operation plimit soc socMin cap load pv).2 ∧
      (bess_operation plimit soc socMin cap load pv).2 ≤ 1 := by
  unfold bess_operation
  by_cases hx : 0 < pv - load
  · simp only [hx, if_true]
    set c := min (pv - load) plimit with hc
    have hc0 : 0 ≤ c := le_min (le_of_lt hx) hpl
    by_cases hhead : c < (1 - soc) * cap
    · simp only [hhead, if_true]
      constructor
      · have : 0 ≤ c / cap := div_nonneg hc0 (le_of_lt hcap)
        linarith
      · have : c / cap < 1 - soc := (div_lt_iff₀ hcap).mpr (by linarith [hhead])
        linarith
    · simp only [hhead, if_false]
      exact ⟨hmin1, le_refl 1⟩
  · simp only [hx, if_false]
    set dpow := min (-(pv - load)) plimit with hd
    have hd0 : 0 ≤ dpow := le_min (by linarith [not_lt.mp hx]) hpl
    by_cases havail : dpow < (soc - socMin) * cap
    · simp only [havail, if_true]
      constructor
      · have : dpow / cap < soc - socMin := (div_lt_iff₀ hcap).mpr (by linarith [havail])
        linarith
      · have : 0 ≤ dpow / cap := div_nonneg hd0 (le_of_lt hcap)
        linarith
    · simp only [havail, if_false]
      exact ⟨le_refl socMin, hmin1⟩

/-- Witness for C1 at the spec's §8 boundary case:
`soc = 1/2, soc_min = 1/10, capacity = 10, power_limit = 5, load = 3, solar = 8`
(surplus = power_limit = headroom ⇒ tie resolves to the saturation branch,
`new_soc = 1`, `net_load = 0`). -/
theorem bess_operation_soc_mem_witness :
    ((1:ℚ)/10 ≤ (bess_operation 5 (1/2) (1/10) 10 3 8).2 ∧
      (bess_operation 5 (1/2) (1/10) 10 3 8).2 ≤ 1) ∧
      bess_operation 5 (1/2) (1/10) 10 3 8 = (0, 1) :=
  ⟨bess_operation_soc_mem 5 (1/2) (1/10) 10 3 8 (by norm_num) (by norm_num)
      (by norm_num) (by norm_num) (by norm_num) (by norm_num),
    by norm_num [bess_operation]⟩

/-! ### Renewal-process history generators (RenewalProcessGenerator)

`bess_history` (src/pdrm/bess_model.py, lines 24–37) and `loadpoint_history`
(src/pdrm/dist_sys_model.py, lines 23–32) run the same renewal loop: starting
from an all-`True` buffer of `8760 * years` entries and a cursor `T = 0`, each
iteration draws a time-to-failure, advances `T`, draws a time-to-repair,
assigns `False` over the slice `[T, T + time_to_repair)` (numpy clips a
scalar slice assignment at the buffer end, including when `T` itself is
already past the end), and advances `T` again, until `T ≥ 8760 * years`.
The two sources differ only in how the exponential draws are scaled by
their rate parameters (`bess_failure_rate`/`bess_repair_rate` per hour,
`failure_rate` per year with the `* 8760` conversion, `repair_time` hours);
for every positive rate the integer sojourn `int(np.ceil(-np.log(u)/rate))`
ranges over exactly `{1, 2, …}`, which the draw stream `s : ℕ → ℕ × ℕ`
absorbs (iteration `k` uses time-to-failure `(s k).1 + 1` and
time-to-repair `(s k).2 + 1`). -/

/-- numpy scalar slice assignment `buf[a:b] = False`: every position in
`[a, b)` that exists in the buffer becomes `false`; positions past the end
are silently clipped (never an out-of-bounds write). -/
def setRangeFalse (l : List Bool) (a b : ℕ) : List Bool :=
  l.mapIdx fun i x => if a ≤ i ∧ i < b then false else x

/-- The shared renewal `while` loop of `bess_history` and
`loadpoint_history`: `k` is the iteration counter into the draw stream,
`T` the hour cursor, `acc` the availability buffer. -/
def renewalHistAux (horizon : ℕ) (s : ℕ → ℕ × ℕ) (k T : ℕ) (acc : List Bool) :
    List Bool :=
  if T < horizon then
    let ttf := (s k).1 + 1
    let ttr := (s k).2 + 1
    renewalHistAux horizon s (k + 1) (T + ttf + ttr)
      (setRangeFalse acc (T + ttf) (T + ttf + ttr))
  else acc
termination_by horizon - T
decreasing_by omega

/-- Embedding of `bess_history` (src/pdrm/bess_model.py, lines 24–37). -/
def bess_history (years : ℕ) (s : ℕ → ℕ × ℕ) : List Bool :=
  renewalHistAux (8760 * years) s 0 0 (List.replicate (8760 * years) true)

/-- Embedding of `loadpoint_history` (src/pdrm/dist_sys_model.py,
lines 23–32); the loop is identical to `bess_history` up to the rate
scaling absorbed by the draw stream. -/
def loadpoint_history (years : ℕ) (s : ℕ → ℕ × ℕ) : List Bool :=
  renewalHistAux (8760 * years) s 0 0 (List.replicate (8760 * years) true)

theorem setRangeFalse_length (l : List Bool) (a b : ℕ) :
    (setRangeFalse l a b).length = l.length := by
  simp [setRangeFalse]

theorem renewalHistAux_length (horizon : ℕ) (s : ℕ → ℕ × ℕ) :
    ∀ fuel k T acc, horizon - T ≤ fuel →
      (renewalHistAux horizon s k T acc).length = acc.length := by
  intro fuel
  induction fuel with
  | zero =>
    intro k T acc h
    rw [renewalHistAux]
    have : ¬ T < horizon := by omega
    simp [this]
  | succ n ih =>
    intro k T acc h
    rw [renewalHistAux]
    by_cases hT : T < horizon
    · simp only [hT, if_true]
      rw [ih _ _ _ (by omega), setRangeFalse_length]
    · simp [hT]

/-- C6: for every horizon `years` and every stream of (positive) sojourn
draws — i.e. for all `failure_rate, repair_rate > 0`, whose draws the streams
abstract exactly — both `bess_history` and `loadpoint_history` return a
boolean history of exactly `8760 * years` entries: the final down-sojourn's
`False`-write is clipped at the buffer bound by `setRangeFalse` (an
out-of-bounds write is unrepresentable in the model, mirroring numpy's
clipping of scalar slice assignment), and the buffer length never changes. -/
theorem history_length_exact (years : ℕ) (s s' : ℕ → ℕ × ℕ) :
    (bess_history years s).length = 8760 * years ∧
      (loadpoint_history years s').length = 8760 * years := by
  constructor
  · rw [bess_history, renewalHistAux_length _ _ (8760 * years) _ _ _ (by omega)]
    exact List.length_replicate _ _
  · rw [loadpoint_history, renewalHistAux_length _ _ (8760 * years) _ _ _ (by omega)]
    exact List.length_replicate _ _

/-! ### pv_model.msmpv (MultiStateGenerator)

Embedding of `msmpv` (src/pdrm/pv_model.py, lines 28–69).  The buffer is
`np.ones(8760 * (years + 10))`; each loop iteration at state `i` computes
`p_up = (i-1)*repair / ((i-1)*repair + (n-(i-1))*failure)`, draws a uniform
`u` and degrades (`state+1`) when `u > p_up`, else repairs (`state-1`);
the sojourn length is an exponential ceil-draw whose rate denominator is
`(n-(i-1))*failure` (degrade) or `(i-1)*repair` (repair).  A zero rate
denominator makes the Python draw `int(np.ceil(inf))` raise `OverflowError`;
this is the `none` branch guarded by `0 < rate` below.  The hourly write
`pv_output[T:T+ttt] = (n-(i-1)) * profile[(T..T+ttt) % 8760]` has an array
right-hand side of length `ttt`, so numpy raises a broadcast `ValueError`
(modelled as `none`) whenever `T + ttt` exceeds the buffer length; otherwise
it rewrites exactly the positions in `[T, T+ttt)`.  On loop exit the buffer
is truncated to `8760 * years` entries.

Alongside the output the embedding returns the (ghost) trace of visited
Markov states, so that the state invariant of the source's local
`pv_state` variable can be stated. -/

/-- Per-iteration random draws of `msmpv`: `u k` is the uniform compared
against `p_up` at iteration `k`; `soj k + 1` is the integer sojourn length
drawn at iteration `k` (exactly the range of `int(np.ceil(-log(u)/rate))`
for a positive rate). -/
structure MsmpvDraws where
  u : ℕ → ℚ
  soj : ℕ → ℕ

/-- numpy array slice assignment
`buf[T:T+ttt] = mult * profile[(T..T+ttt) % 8760]`: succeeds with the
masked rewrite iff the slice fits in the buffer, else raises (broadcast
`ValueError`, modelled as `none`). -/
def msmpvWrite (buf : List ℚ) (profile : ℕ → ℚ) (mult : ℚ) (T ttt : ℕ) :
    Option (List ℚ) :=
  if T + ttt ≤ buf.length then
    some (buf.mapIdx fun i x => if T ≤ i ∧ i < T + ttt then mult * profile (i % 8760) else x)
  else none

/-- The `while` loop of `msmpv`.  Returns the truncated output (or `none`
on a Python-level fault) together with the trace of visited `pv_state`
values from the current state onward. -/
def msmpvAux (years n : ℕ) (acm_failure_rate acm_repair_rate : ℚ)
    (profile : ℕ → ℚ) (d : MsmpvDraws) (k T state : ℕ) (buf : List ℚ) :
    Option (List ℚ) × List ℕ :=
  if T < 8760 * years then
    let failed : ℚ := (state : ℚ) - 1
    let pUp : ℚ := failed * acm_repair_rate /
      (failed * acm_repair_rate + ((n : ℚ) - failed) * acm_failure_rate)
    if pUp < d.u k then
      if 0 < ((n : ℚ) - failed) * acm_failure_rate then
        let ttt := d.soj k + 1
        match msmpvWrite buf profile ((n : ℚ) - failed) T ttt with
        | some buf2 =>
          let r := msmpvAux years n acm_failure_rate acm_repair_rate profile d
            (k + 1) (T + ttt) (state + 1) buf2
          (r.1, state :: r.2)
        | none => (none, [state])
      else (none, [state])
    else
      if 0 < failed * acm_repair_rate then
        let ttt := d.soj k + 1
        match msmpvWrite buf profile ((n : ℚ) - failed) T ttt with
        | some buf2 =>
          let r := msmpvAux years n acm_failure_rate acm_repair_rate profile d
            (k + 1) (T + ttt) (state - 1) buf2
          (r.1, state :: r.2)
        | none => (none, [state])
      else (none, [state])
  else (some (buf.take (8760 * years)), [state])
termination_by 8760 * years - T
decreasing_by all_goals omega

/-- Embedding of `msmpv` with its ghost state trace: initial cursor `T = 0`,
initial state `1`, buffer `np.ones(8760 * (years + 10))`. -/
def msmpvRun (years n : ℕ) (fr rr : ℚ) (profile : ℕ → ℚ) (d : MsmpvDraws) :
    Option (List ℚ) × List ℕ :=
  msmpvAux years n fr rr profile d 0 0 1 (List.replicate (8760 * (years + 10)) 1)

/-- Embedding of `msmpv` (src/pdrm/pv_model.py, lines 28–69): the PV output
history, or `none` where the Python raises. -/
def msmpv (years n : ℕ) (fr rr : ℚ) (profile : ℕ → ℚ) (d : MsmpvDraws) :
    Option (List ℚ) :=
  (msmpvRun years n fr rr profile d).1

theorem msmpvWrite_spec (buf : List ℚ) (p : ℕ → ℚ) (m : ℚ) (T ttt : ℕ)
    (buf2 : List ℚ) (h : msmpvWrite buf p m T ttt = some buf2) :
    buf2.length = buf.length ∧ T + ttt ≤ buf.length ∧
      ∀ i, i < buf.length →
        buf2.getD i 0 = if T ≤ i ∧ i < T + ttt then m * p (i % 8760) else buf.getD i 0 := by
  rw [msmpvWrite] at h
  by_cases hle : T + ttt ≤ buf.length
  · rw [if_pos hle, Option.some_inj] at h
    subst h
    refine ⟨by simp, hle, fun i hi => ?_⟩
    rw [List.getD_eq_getElem _ _ (by simpa using hi), List.getElem_mapIdx]
    by_cases hin : T ≤ i ∧ i < T + ttt
    · simp [hin]
    · simp only [hin, if_false]
      exact (List.getD_eq_getElem _ _ hi).symm
  · rw [if_neg hle] at h
    exact absurd h (by simp)

theorem msmpvWrite_none (buf : List ℚ) (p : ℕ → ℚ) (m : ℚ) (T ttt : ℕ)
    (h : ¬ T + ttt ≤ buf.length) : msmpvWrite buf p m T ttt = none := by
  rw [msmpvWrite, if_neg h]

set_option maxHeartbeats 1600000 in
theorem msmpvAux_some (years n : ℕ) (fr rr : ℚ) (p : ℕ → ℚ) (d : MsmpvDraws)
    (hn : 1 ≤ n) (hfr : 0 < fr) (hrr : 0 < rr)
    (hu : ∀ k, 0 < d.u k ∧ d.u k < 1) (hs : ∀ k, d.soj k < 87600) :
    ∀ fuel k T state buf, 8760 * years - T ≤ fuel → 1 ≤ state → state ≤ n + 1 →
      buf.length = 8760 * (years + 10) →
      ∃ out, (msmpvAux years n fr rr p d k T state buf).1 = some out ∧
        out.length = 8760 * years := by
  have h1q : (1:ℚ) ≤ (n:ℚ) := by exact_mod_cast hn
  have hnrr : (0:ℚ) < (n:ℚ) * rr := mul_pos (by linarith) hrr
  intro fuel
  induction fuel with
  | zero =>
    intro k T state buf hfuel h1 h2 hlen
    rw [msmpvAux]
    have hT : ¬ T < 8760 * years := by omega
    simp only [hT, if_false]
    exact ⟨_, rfl, by rw [List.length_take]; omega⟩
  | succ m ih =>
    intro k T state buf hfuel h1 h2 hlen
    rw [msmpvAux]
    by_cases hT : T < 8760 * years
    swap
    · simp only [hT, if_false]
      exact ⟨_, rfl, by rw [List.length_take]; omega⟩
    simp only [hT, if_true]
    have hwr : T + (d.soj k + 1) ≤ buf.length := by
      have := hs k; omega
    split
    next hbr =>
      have hsn : state ≤ n := by
        by_contra hgt
        have hse : state = n + 1 := by omega
        have e : ((state:ℚ) - 1) * rr /
            (((state:ℚ) - 1) * rr + ((n : ℚ) - ((state:ℚ) - 1)) * fr) = 1 := by
          have hsq : (state:ℚ) = (n:ℚ) + 1 := by rw [hse]; push_cast; ring
          rw [hsq, show ((n:ℚ) + 1 - 1) = (n:ℚ) from by ring,
            show ((n:ℚ) - (n:ℚ)) * fr = 0 from by ring, add_zero,
            div_self (ne_of_gt hnrr)]
        rw [e] at hbr
        exact absurd hbr (not_lt.mpr (le_of_lt (hu k).2))
      have hg : 0 < ((n : ℚ) - ((state:ℚ) - 1)) * fr := by
        have : (state:ℚ) ≤ (n:ℚ) := by exact_mod_cast hsn
        exact mul_pos (by linarith) hfr
      rw [if_pos hg]
      obtain ⟨buf2, hbuf2⟩ : ∃ buf2,
          msmpvWrite buf p ((n : ℚ) - ((state:ℚ) - 1)) T (d.soj k + 1) = some buf2 := by
        rw [msmpvWrite, if_pos hwr]; exact ⟨_, rfl⟩
      rw [hbuf2]
      have hlen2 : buf2.length = 8760 * (years + 10) := by
        rw [(msmpvWrite_spec _ _ _ _ _ _ hbuf2).1, hlen]
      obtain ⟨out, hout, holen⟩ :=
        ih (k + 1) (T + (d.soj k + 1)) (state + 1) buf2 (by omega) (by omega)
          (by omega) hlen2
      exact ⟨out, hout, holen⟩
    next hbr =>
      have hst2 : 2 ≤ state := by
        by_contra h2'
        have hse : state = 1 := by omega
        have e : ((state:ℚ) - 1) * rr /
            (((state:ℚ) - 1) * rr + ((n : ℚ) - ((state:ℚ) - 1)) * fr) = 0 := by
          rw [hse]; push_cast; rw [show ((1:ℚ) - 1) * rr = 0 from by ring, zero_div]
        rw [e] at hbr
        exact absurd ((hu k).1) hbr
      have hg : 0 < ((state:ℚ) - 1) * rr := by
        have : (2:ℚ) ≤ (state:ℚ) := by exact_mod_cast hst2
        exact mul_pos (by linarith) hrr
      rw [if_pos hg]
      obtain ⟨buf2, hbuf2⟩ : ∃ buf2,
          msmpvWrite buf p ((n : ℚ) - ((state:ℚ) - 1)) T (d.soj k + 1) = some buf2 := by
        rw [msmpvWrite, if_pos hwr]; exact ⟨_, rfl⟩
      rw [hbuf2]
      have hlen2 : buf2.length = 8760 * (years + 10) := by
        rw [(msmpvWrite_spec _ _ _ _ _ _ hbuf2).1, hlen]
      obtain ⟨out, hout, holen⟩ :=
        ih (k + 1) (T + (d.soj k + 1)) (state - 1) buf2 (by omega) (by omega)
          (by omega) hlen2
      exact ⟨out, hout, holen⟩

set_option maxHeartbeats 1600000 in
theorem msmpvAux_bound (years n : ℕ) (fr rr cap : ℚ) (p : ℕ → ℚ) (d : MsmpvDraws)
    (hp : ∀ h, 0 ≤ p h ∧ p h ≤ cap) :
    ∀ fuel k T state buf, 8760 * years - T ≤ fuel → 1 ≤ state →
      (∀ i, i < T → buf.getD i 0 ≤ (n : ℚ) * cap) →
      ∀ out, (msmpvAux years n fr rr p d k T state buf).1 = some out →
        ∀ x ∈ out, x ≤ (n : ℚ) * cap := by
  have hcap : 0 ≤ cap := le_trans (hp 0).1 (hp 0).2
  intro fuel
  induction fuel with
  | zero =>
    intro k T state buf hfuel h1 hinv out hout x hx
    rw [msmpvAux] at hout
    have hT : ¬ T < 8760 * years := by omega
    simp only [hT, if_false, Option.some_inj] at hout
    subst hout
    obtain ⟨i, hi, hix⟩ := List.mem_iff_getElem.mp hx
    have hib : i < buf.length := lt_of_lt_of_le hi (by simp [List.length_take])
    have hiT : i < T := by
      have : i < 8760 * years := lt_of_lt_of_le hi (by simp [List.length_take])
      omega
    rw [List.getElem_take] at hix
    have := hinv i hiT
    rw [List.getD_eq_getElem _ _ hib] at this
    rw [← hix]
    exact this
  | succ m ih =>
    intro k T state buf hfuel h1 hinv out hout x hx
    rw [msmpvAux] at hout
    by_cases hT : T < 8760 * years
    swap
    · simp only [hT, if_false, Option.some_inj] at hout
      subst hout
      obtain ⟨i, hi, hix⟩ := List.mem_iff_getElem.mp hx
      have hib : i < buf.length := lt_of_lt_of_le hi (by simp [List.length_take])
      have hiT : i < T := by
        have : i < 8760 * years := lt_of_lt_of_le hi (by simp [List.length_take])
        omega
      rw [List.getElem_take] at hix
      have := hinv i hiT
      rw [List.getD_eq_getElem _ _ hib] at this
      rw [← hix]
      exact this
    simp only [hT, if_true] at hout
    have hmult : ((n : ℚ) - ((state:ℚ) - 1)) ≤ (n : ℚ) := by
      have : (1:ℚ) ≤ (state:ℚ) := by exact_mod_cast h1
      linarith
    have hbound : ∀ buf2, msmpvWrite buf p ((n : ℚ) - ((state:ℚ) - 1)) T (d.soj k + 1) = some buf2 →
        ∀ i, i < T + (d.soj k + 1) → buf2.getD i 0 ≤ (n : ℚ) * cap := by
      intro buf2 hw i hi
      obtain ⟨hlen2, hfit, hget⟩ := msmpvWrite_spec _ _ _ _ _ _ hw
      rw [hget i (by omega)]
      by_cases hin : T ≤ i ∧ i < T + (d.soj k + 1)
      · rw [if_pos hin]
        have hpi := hp (i % 8760)
        nlinarith [hpi.1, hpi.2, hmult]
      · rw [if_neg hin]
        exact hinv i (by omega)
    split at hout
    next hbr =>
      split at hout
      next hg =>
        split at hout
        next buf2 hw =>
          simp only at hout
          exact ih (k + 1) (T + (d.soj k + 1)) (state + 1) buf2 (by omega) (by omega)
            (hbound buf2 hw) out hout x hx
        next hw => simp at hout
      next hg => simp at hout
    next hbr =>
      split at hout
      next hg =>
        have hst2 : 2 ≤ state := by
          by_contra h2'
          have hse : state = 1 := by omega
          rw [hse] at hg
          norm_num at hg
        split at hout
        next buf2 hw =>
          simp only at hout
          exact ih (k + 1) (T + (d.soj k + 1)) (state - 1) buf2 (by omega) (by omega)
            (hbound buf2 hw) out hout x hx
        next hw => simp at hout
      next hg => simp at hout

set_option maxHeartbeats 1600000 in
theorem msmpvAux_trace (years n : ℕ) (fr rr : ℚ) (p : ℕ → ℚ) (d : MsmpvDraws) :
    ∀ fuel k T state buf, 8760 * years - T ≤ fuel → 1 ≤ state → state ≤ n + 1 →
      (msmpvAux years n fr rr p d k T state buf).2.head? = some state ∧
        (∀ s ∈ (msmpvAux years n fr rr p d k T state buf).2, 1 ≤ s ∧ s ≤ n + 1) ∧
        List.Chain' (fun a b => b = a + 1 ∨ a = b + 1)
          (msmpvAux years n fr rr p d k T state buf).2 := by
  intro fuel
  induction fuel with
  | zero =>
    intro k T state buf hfuel h1 h2
    rw [msmpvAux]
    have hT : ¬ T < 8760 * years := by omega
    simp only [hT, if_false]
    exact ⟨rfl, by intro s hs; simp at hs; omega, List.chain'_singleton _⟩
  | succ m ih =>
    intro k T state buf hfuel h1 h2
    rw [msmpvAux]
    by_cases hT : T < 8760 * years
    swap
    · simp only [hT, if_false]
      exact ⟨rfl, by intro s hs; simp at hs; omega, List.chain'_singleton _⟩
    simp only [hT, if_true]
    split
    next hbr =>
      split
      next hg =>
        have hsn : state ≤ n := by
          by_contra hgt
          have hse : state = n + 1 := by omega
          rw [hse] at hg
          have : ((n : ℚ) - ((↑(n + 1):ℚ) - 1)) * fr = 0 := by push_cast; ring
          rw [this] at hg
          exact lt_irrefl 0 hg
        split
        next buf2 hw =>
          simp only
          obtain ⟨ha, hb, hc⟩ := ih (k + 1) (T + (d.soj k + 1)) (state + 1) buf2
            (by omega) (by omega) (by omega)
          refine ⟨rfl, ?_, ?_⟩
          · intro s hs
            rcases List.mem_cons.mp hs with h | h
            · omega
            · exact hb s h
          · refine List.Chain'.cons' hc ?_
            intro y hy
            rw [ha, Option.mem_some_iff] at hy
            left
            omega
        next hw =>
          exact ⟨rfl, by intro s hs; simp at hs; omega, List.chain'_singleton _⟩
      next hg =>
        exact ⟨rfl, by intro s hs; simp at hs; omega, List.chain'_singleton _⟩
    next hbr =>
      split
      next hg =>
        have hst2 : 2 ≤ state := by
          by_contra h2'
          have hse : state = 1 := by omega
          rw [hse] at hg
          norm_num at hg
        split
        next buf2 hw =>
          simp only
          obtain ⟨ha, hb, hc⟩ := ih (k + 1) (T + (d.soj k + 1)) (state - 1) buf2
            (by omega) (by omega) (by omega)
          refine ⟨rfl, ?_, ?_⟩
          · intro s hs
            rcases List.mem_cons.mp hs with h | h
            · omega
            · exact hb s h
          · refine List.Chain'.cons' hc ?_
            intro y hy
            rw [ha, Option.mem_some_iff] at hy
            right
            omega
        next hw =>
          exact ⟨rfl, by intro s hs; simp at hs; omega, List.chain'_singleton _⟩
      next hg =>
        exact ⟨rfl, by intro s hs; simp at hs; omega, List.chain'_singleton _⟩

/-- Embedding of the per-module PV profile construction of `equivalent_load`
(src/pdrm/residential_model.py, lines 64–71): `output_per_module =
acm_module_rating * 0.8 * (solar_ghi / 1)`, then clipped above at
`acm_module_rating` (entries greater than the rating are set to the
rating). -/
def output_per_module (acm_module_rating : ℚ) (solar_ghi : ℕ → ℚ) : ℕ → ℚ :=
  fun h =>
    let v := acm_module_rating * (4 / 5) * solar_ghi h
    if acm_module_rating < v then acm_module_rating else v

/-- A write whose sojourn overshoots the end of the `msmpv` output buffer
fails (numpy broadcast `ValueError`), aborting the simulation. -/
theorem msmpvAux_overflow (years n : ℕ) (fr rr : ℚ) (p : ℕ → ℚ)
    (d : MsmpvDraws) (k T state : ℕ) (buf : List ℚ) (hT : T < 8760 * years)
    (hover : buf.length < T + (d.soj k + 1)) :
    (msmpvAux years n fr rr p d k T state buf).1 = none := by
  rw [msmpvAux, if_pos hT]
  dsimp only
  rw [msmpvWrite_none _ _ _ _ _ (by omega)]
  split <;> split <;> rfl

/-- C2, counterexample: the 10-year margin of the `msmpv` output buffer does
not absorb every sojourn.  With `years = 1` (buffer `8760 * 11 = 96360`
entries) and a first sojourn draw of `96361` hours — reachable for any
positive failure rate — the very first hourly write exceeds the buffer
bound, so numpy raises a broadcast `ValueError` (the write fails) instead of
clipping: the model returns `none`. -/
theorem msmpv_overflow_counterexample :
    msmpv 1 1 1 1 (fun _ => 1) ⟨fun _ => 1/2, fun _ => 96360⟩ = none := by
  rw [msmpv, msmpvRun]
  apply msmpvAux_overflow
  · norm_num
  · rw [List.length_replicate]
    show 8760 * (1 + 10) < 0 + (96360 + 1)
    norm_num

/-- C2 (amended): for every horizon `years ≥ 1`, module count `n ≥ 1`,
positive rates, uniform draws in `(0,1)` and every random stream in which
each sojourn is at most the 10-year margin (`87600` hours), every hourly
write of `msmpv` stays within the allocated output buffer
`np.ones(8760 * (years + 10))`, no write fails, and the returned
(truncated) array has exactly `8760 * years` entries. -/
theorem msmpv_margin_length (years n : ℕ) (fr rr : ℚ) (p : ℕ → ℚ)
    (d : MsmpvDraws) (hyears : 1 ≤ years) (hn : 1 ≤ n) (hfr : 0 < fr)
    (hrr : 0 < rr) (hu : ∀ k, 0 < d.u k ∧ d.u k < 1)
    (hs : ∀ k, d.soj k < 87600) :
    ∃ out, msmpv years n fr rr p d = some out ∧ out.length = 8760 * years := by
  rw [msmpv, msmpvRun]
  exact msmpvAux_some years n fr rr p d hn hfr hrr hu hs (8760 * years) 0 0 1
    (List.replicate _ 1) (by omega) (by omega) (by omega) (by simp)

/-- Witness for the amended C2 at `years = 1`, one module, unit rates,
constant uniform draw `1/2` and constant sojourn draw `1` hour. -/
theorem msmpv_margin_length_witness :
    ∃ out, msmpv 1 1 1 1 (fun _ => 1) ⟨fun _ => 1/2, fun _ => 0⟩ = some out ∧
      out.length = 8760 * 1 :=
  msmpv_margin_length 1 1 1 1 (fun _ => 1) ⟨fun _ => 1/2, fun _ => 0⟩
    (by norm_num) (by norm_num) (by norm_num) (by norm_num)
    (fun k => by norm_num) (fun k => by norm_num)

/-- C7: throughout every execution of `msmpv` the visited Markov state stays
in `[1, n + 1]` — equivalently the failed-module count `pv_state - 1` stays
in `[0, module_count]` — and transitions only to adjacent states; and,
provided every entry of the per-module profile lies in `[0, cap]`, every
entry of a successfully returned output is at most `module_count * cap`.
The final conjunct ties the profile hypothesis to the source: the
`output_per_module` profile built by `equivalent_load` is always within
`[0, acm_module_rating]` when the irradiance is nonnegative, so `cap` is
the per-module rating. -/
theorem msmpv_state_invariant (years n : ℕ) (fr rr cap : ℚ) (p : ℕ → ℚ)
    (d : MsmpvDraws) (hp : ∀ h, 0 ≤ p h ∧ p h ≤ cap) :
    (∀ s ∈ (msmpvRun years n fr rr p d).2, 1 ≤ s ∧ s ≤ n + 1) ∧
      List.Chain' (fun a b => b = a + 1 ∨ a = b + 1)
        (msmpvRun years n fr rr p d).2 ∧
      (∀ out, msmpv years n fr rr p d = some out →
        ∀ x ∈ out, x ≤ (n : ℚ) * cap) ∧
      (∀ rating : ℚ, ∀ ghi : ℕ → ℚ, ∀ h : ℕ, 0 ≤ rating → 0 ≤ ghi h →
        0 ≤ output_per_module rating ghi h ∧
          output_per_module rating ghi h ≤ rating) := by
  obtain ⟨ha, hb, hc⟩ := msmpvAux_trace years n fr rr p d (8760 * years) 0 0 1
    (List.replicate (8760 * (years + 10)) 1) (by omega) (le_refl 1) (by omega)
  refine ⟨hb, hc, ?_, ?_⟩
  · intro out hout
    exact msmpvAux_bound years n fr rr cap p d hp (8760 * years) 0 0 1
      (List.replicate (8760 * (years + 10)) 1) (by omega) (le_refl 1)
      (by intro i hi; omega) out hout
  · intro rating ghi h hr hg
    rw [output_per_module]
    by_cases hclip : rating < rating * (4 / 5) * ghi h
    · simp only [hclip, if_true]
      exact ⟨hr, le_refl rating⟩
    · simp only [hclip, if_false]
      exact ⟨mul_nonneg (mul_nonneg hr (by norm_num)) hg, not_lt.mp hclip⟩

/-- Witness for C7: one year, one module, unit rates, constant profile `1/2`
capped by `1`, uniform draw `1/2`, sojourn draws of one hour. -/
theorem msmpv_state_invariant_witness :
    (∀ s ∈ (msmpvRun 1 1 1 1 (fun _ => 1/2) ⟨fun _ => 1/2, fun _ => 0⟩).2,
        1 ≤ s ∧ s ≤ 1 + 1) ∧
      List.Chain' (fun a b => b = a + 1 ∨ a = b + 1)
        (msmpvRun 1 1 1 1 (fun _ => 1/2) ⟨fun _ => 1/2, fun _ => 0⟩).2 ∧
      (∀ out, msmpv 1 1 1 1 (fun _ => 1/2) ⟨fun _ => 1/2, fun _ => 0⟩ = some out →
        ∀ x ∈ out, x ≤ ((1:ℕ) : ℚ) * 1) ∧
      (∀ rating : ℚ, ∀ ghi : ℕ → ℚ, ∀ h : ℕ, 0 ≤ rating → 0 ≤ ghi h →
        0 ≤ output_per_module rating ghi h ∧
          output_per_module rating ghi h ≤ rating) :=
  msmpv_state_invariant 1 1 1 1 1 (fun _ => 1/2) ⟨fun _ => 1/2, fun _ => 0⟩
    (fun h => by norm_num)

/-! ### residential_model.equivalent_load (NetLoadComposer) -/

/-- The per-hour `pv_bess` / `pv_bess_standalone` dispatch loop of
`equivalent_load` (src/pdrm/residential_model.py, lines 94–128), threading
the battery state of charge through `bess_operation`.  An hour with the
battery up dispatches the battery; with the battery down, the
grid-connected variant (`standalone = false`) takes `load - pv` when the
load point is up and the raw load otherwise, while the standalone variant
always takes the raw load. -/
def pvBessGo (hourly_load : ℕ → ℚ) (pv : List ℚ) (bess lp : List Bool)
    (standalone : Bool) (socMin cap plimit : ℚ) : List ℕ → ℚ → List ℚ
  | [], _ => []
  | T :: rest, soc =>
    let h := T % 8760
    if bess.getD T false then
      let r := bess_operation plimit soc socMin cap (hourly_load h) (pv.getD T 0)
      r.1 :: pvBessGo hourly_load pv bess lp standalone socMin cap plimit rest r.2
    else if !standalone && lp.getD T false then
      (hourly_load h - pv.getD T 0) ::
        pvBessGo hourly_load pv bess lp standalone socMin cap plimit rest soc
    else
      hourly_load h ::
        pvBessGo hourly_load pv bess lp standalone socMin cap plimit rest soc

/-- Embedding of `equivalent_load` (src/pdrm/residential_model.py,
lines 8–130).  `hourly_load` and `solar_ghi` are the 8760-hour profiles
(always indexed modulo 8760 as in the source); the four
`customer_der_type` string branches follow the source, with the all-zeros
`np.zeros(8760 * years)` initialization returned unchanged when no branch
matches.  The PV branches propagate a `msmpv` fault (`none`); the battery
history's sojourn draws are `bessDraws` (absorbing
`bess_failure_rate`/`bess_repair_rate` as for `bess_history`), and the
initial state of charge is `1` as set before the branches. -/
def equivalent_load (hourly_load : ℕ → ℚ)
    (acm_module_rating acm_failure_rate acm_repair_rate : ℚ)
    (solar_ghi : ℕ → ℚ) (years : ℕ) (customer_der_type : String)
    (lp_syn_history : List Bool)
    (bess_state_of_charge_min pv_capacity bess_capacity bess_power_limit : ℚ)
    (pvDraws : MsmpvDraws) (bessDraws : ℕ → ℕ × ℕ) : Option (List ℚ) :=
  let number_of_acm_modules := (⌈pv_capacity / acm_module_rating⌉).toNat
  let opm := output_per_module acm_module_rating solar_ghi
  if customer_der_type = "no_der" then
    some ((List.range (8760 * years)).map fun t => hourly_load (t % 8760))
  else if customer_der_type = "pv" then
    (msmpv years number_of_acm_modules acm_failure_rate acm_repair_rate opm pvDraws).map
      fun pv => (List.range (8760 * years)).map fun t =>
        if lp_syn_history.getD t false then hourly_load (t % 8760) - pv.getD t 0
        else hourly_load (t % 8760)
  else if customer_der_type = "pv_bess" then
    (msmpv years number_of_acm_modules acm_failure_rate acm_repair_rate opm pvDraws).map
      fun pv => pvBessGo hourly_load pv (bess_history years bessDraws) lp_syn_history
        false bess_state_of_charge_min bess_capacity bess_power_limit
        (List.range (8760 * years)) 1
  else if customer_der_type = "pv_bess_standalone" then
    (msmpv years number_of_acm_modules acm_failure_rate acm_repair_rate opm pvDraws).map
      fun pv => pvBessGo hourly_load pv (bess_history years bessDraws) lp_syn_history
        true bess_state_of_charge_min bess_capacity bess_power_limit
        (List.range (8760 * years)) 1
  else some (List.replicate (8760 * years) 0)

/-- C9: in the `no_der` configuration, for every horizon, `equivalent_load`
returns exactly the 8760-hour load profile tiled across the whole horizon —
hour `t` maps to the load at `t % 8760` — with exact equality and no
dependence on the random draws (the result is identical for any two draw
streams). -/
theorem equivalent_load_no_der_tiled (hourly_load : ℕ → ℚ) (r fr rr : ℚ)
    (ghi : ℕ → ℚ) (years : ℕ) (lp : List Bool) (sm pc bc pl : ℚ)
    (d d' : MsmpvDraws) (bd bd' : ℕ → ℕ × ℕ) :
    equivalent_load hourly_load r fr rr ghi years "no_der" lp sm pc bc pl d bd =
      some ((List.range (8760 * years)).map fun t => hourly_load (t % 8760)) ∧
      (∀ t, t < 8760 * years →
        ((List.range (8760 * years)).map fun t => hourly_load (t % 8760)).getD t 0 =
          hourly_load (t % 8760)) ∧
      equivalent_load hourly_load r fr rr ghi years "no_der" lp sm pc bc pl d bd =
        equivalent_load hourly_load r fr rr ghi years "no_der" lp sm pc bc pl d' bd' := by
  refine ⟨rfl, ?_, rfl⟩
  intro t ht
  rw [List.getD_eq_getElem _ _ (by simpa using ht)]
  simp

/-- Witness for C9: one-year horizon, load profile `t ↦ t`, checked at a
sample hour through the theorem. -/
theorem equivalent_load_no_der_tiled_witness :
    equivalent_load (fun t => (t : ℚ)) 1 1 1 (fun _ => 1) 1 "no_der" [] 0 1 1 1
        ⟨fun _ => 1/2, fun _ => 0⟩ (fun _ => (0, 0)) =
      some ((List.range (8760 * 1)).map fun t => ((t % 8760 : ℕ) : ℚ)) ∧
      (∀ t, t < 8760 * 1 →
        ((List.range (8760 * 1)).map fun t => ((t % 8760 : ℕ) : ℚ)).getD t 0 =
          ((t % 8760 : ℕ) : ℚ)) ∧
      equivalent_load (fun t => (t : ℚ)) 1 1 1 (fun _ => 1) 1 "no_der" [] 0 1 1 1
          ⟨fun _ => 1/2, fun _ => 0⟩ (fun _ => (0, 0)) =
        equivalent_load (fun t => (t : ℚ)) 1 1 1 (fun _ => 1) 1 "no_der" [] 0 1 1 1
          ⟨fun _ => 1/3, fun _ => 5⟩ (fun _ => (2, 3)) :=
  equivalent_load_no_der_tiled (fun t => (t : ℚ)) 1 1 1 (fun _ => 1) 1 [] 0 1 1 1
    ⟨fun _ => 1/2, fun _ => 0⟩ ⟨fun _ => 1/3, fun _ => 5⟩ (fun _ => (0, 0)) (fun _ => (2, 3))

/-- C10: calling `equivalent_load` with a `customer_der_type` outside
`{no_der, pv, pv_bess, pv_bess_standalone}` raises no error and silently
returns the untouched all-zeros initialization `np.zeros(8760 * years)`,
of length exactly `8760 * years`. -/
theorem equivalent_load_unknown_der_zeros (hourly_load : ℕ → ℚ) (r fr rr : ℚ)
    (ghi : ℕ → ℚ) (years : ℕ) (lp : List Bool) (sm pc bc pl : ℚ)
    (d : MsmpvDraws) (bd : ℕ → ℕ × ℕ) (der : String)
    (h1 : der ≠ "no_der") (h2 : der ≠ "pv") (h3 : der ≠ "pv_bess")
    (h4 : der ≠ "pv_bess_standalone") :
    equivalent_load hourly_load r fr rr ghi years der lp sm pc bc pl d bd =
      some (List.replicate (8760 * years) 0) ∧
      (List.replicate (8760 * years) (0 : ℚ)).length = 8760 * years := by
  rw [equivalent_load]
  rw [if_neg h1, if_neg h2, if_neg h3, if_neg h4]
  exact ⟨rfl, List.length_replicate _ _⟩

/-- Witness for C10 with the unknown type `"wind"` over a one-year
horizon. -/
theorem equivalent_load_unknown_der_zeros_witness :
    equivalent_load (fun _ => 1) 1 1 1 (fun _ => 1) 1 "wind" [] 0 1 1 1
        ⟨fun _ => 1/2, fun _ => 0⟩ (fun _ => (0, 0)) =
      some (List.replicate (8760 * 1) 0) ∧
      (List.replicate (8760 * 1) (0 : ℚ)).length = 8760 * 1 :=
  equivalent_load_unknown_der_zeros (fun _ => 1) 1 1 1 (fun _ => 1) 1 [] 0 1 1 1
    ⟨fun _ => 1/2, fun _ => 0⟩ (fun _ => (0, 0)) "wind"
    (by decide) (by decide) (by decide) (by decide)

/-- C8: in the `pv` configuration of `equivalent_load`, for every hour where
the load point is up the net load equals `load - solar_output` for that
hour, and for every hour where the load point is down the net load equals
the raw (tiled) load with no credit for solar. -/
theorem equivalent_load_pv_pointwise (hourly_load : ℕ → ℚ) (r fr rr : ℚ)
    (ghi : ℕ → ℚ) (years : ℕ) (lp : List Bool) (sm pc bc pl : ℚ)
    (d : MsmpvDraws) (bd : ℕ → ℕ × ℕ) (pv net : List ℚ)
    (hpv : msmpv years (⌈pc / r⌉.toNat) fr rr (output_per_module r ghi) d = some pv)
    (hnet : equivalent_load hourly_load r fr rr ghi years "pv" lp sm pc bc pl d bd =
      some net) :
    net.length = 8760 * years ∧
      ∀ t, t < 8760 * years →
        net.getD t 0 = if lp.getD t false then hourly_load (t % 8760) - pv.getD t 0
          else hourly_load (t % 8760) := by
  rw [equivalent_load] at hnet
  rw [if_neg (by decide : ¬ ("pv" = "no_der")), if_pos rfl, hpv] at hnet
  rw [Option.map_some', Option.some_inj] at hnet
  subst hnet
  refine ⟨by simp, ?_⟩
  intro t ht
  rw [List.getD_eq_getElem _ _ (by simpa using ht)]
  simp

/-- Witness for C8 over a one-year horizon: one module (`pv_capacity =
rating = 1` gives `⌈1/1⌉ = 1` module), unit rates, the load point up
everywhere, constant irradiance; the PV history is produced by the
in-margin run of `msmpvAux_some`. -/
theorem equivalent_load_pv_pointwise_witness :
    ∃ pv net,
      msmpv 1 (⌈(1 : ℚ) / 1⌉.toNat) 1 1 (output_per_module 1 fun _ => 1)
          ⟨fun _ => 1/2, fun _ => 0⟩ = some pv ∧
        equivalent_load (fun _ => 2) 1 1 1 (fun _ => 1) 1 "pv"
          (List.replicate (8760 * 1) true) 0 1 1 1 ⟨fun _ => 1/2, fun _ => 0⟩
          (fun _ => (0, 0)) = some net ∧
        net.length = 8760 * 1 ∧
        ∀ t, t < 8760 * 1 →
          net.getD t 0 = if (List.replicate (8760 * 1) true).getD t false then
            (2 : ℚ) - pv.getD t 0 else 2 := by
  have hn : 1 ≤ (⌈(1 : ℚ) / 1⌉.toNat) := by norm_num
  obtain ⟨pv, hpv, hlen⟩ := msmpvAux_some 1 (⌈(1 : ℚ) / 1⌉.toNat) 1 1
    (output_per_module 1 fun _ => 1) ⟨fun _ => 1/2, fun _ => 0⟩ hn
    (by norm_num) (by norm_num) (fun k => by norm_num) (fun k => by norm_num)
    (8760 * 1) 0 0 1 (List.replicate (8760 * (1 + 10)) 1) (by omega) (by omega)
    (by omega) (by rw [List.length_replicate])
  have hpv' : msmpv 1 (⌈(1 : ℚ) / 1⌉.toNat) 1 1 (output_per_module 1 fun _ => 1)
      ⟨fun _ => 1/2, fun _ => 0⟩ = some pv := by
    rw [msmpv, msmpvRun]
    exact hpv
  have hnet : equivalent_load (fun _ => 2) 1 1 1 (fun _ => 1) 1 "pv"
      (List.replicate (8760 * 1) true) 0 1 1 1 ⟨fun _ => 1/2, fun _ => 0⟩
      (fun _ => (0, 0)) = some ((List.range (8760 * 1)).map fun t =>
        if (List.replicate (8760 * 1) true).getD t false then
          (fun _ : ℕ => (2:ℚ)) (t % 8760) - pv.getD t 0
        else (fun _ : ℕ => (2:ℚ)) (t % 8760)) := by
    rw [equivalent_load]
    rw [if_neg (by decide : ¬ ("pv" = "no_der")), if_pos rfl, hpv', Option.map_some']
  obtain ⟨h1, h2⟩ := equivalent_load_pv_pointwise (fun _ => 2) 1 1 1 (fun _ => 1) 1
    (List.replicate (8760 * 1) true) 0 1 1 1 ⟨fun _ => 1/2, fun _ => 0⟩
    (fun _ => (0, 0)) pv _ hpv' hnet
  exact ⟨pv, _, hpv', hnet, h1, h2⟩

/-! ### ceval_indices: IndexAggregator and ConvergenceController

Embedding of `customer_evaluation_grid_connected`
(src/pdrm/ceval_indices.py, lines 85–211).  The loop guard
`cov > cov_convergence` compares `cov = max(cov_if, cov_id)` where each
index's `cov_x = np.sqrt(np.var(sample)/year_counter)/np.mean(sample)` is
computed on floats; to keep the loop executable the guard is the decidable
`covMaxGT` below, which implements Python's `max`/IEEE semantics exactly:
a per-index CoV is NaN when its mean and radicand are zero (`0.0/0.0`,
the all-zero sample; `covIsNan`), Python's `max(a, b) = b if b > a else a`
with all NaN comparisons false lets a NaN `cov_if` survive `max` and then
fail the `>` test — the loop stops even when `cov_id` exceeds the
threshold — while a NaN `cov_id` is discarded by `max`; the non-NaN cases
are the per-index comparison `covGTf`, whose positive-mean case is the
real-number comparison `covGT`, proved equivalent to the source formula in
`covGT_iff`.

The companion `customer_evaluation_standalone` (lines 215–269) computes the
same guard with an additional energy-not-served coefficient, but its
`equivalent_load(peak_load=..., ...)` call passes a keyword parameter
`equivalent_load` does not have (and never supplies `bess_power_limit`), so
in Python it raises `TypeError` in the first batch before any index is
computed; a faithful embedding of that call is ill-typed, and no embedding
of the standalone controller is given. -/

/-- `np.mean` of an accumulated sample array (total division: the empty
array gives `0` where numpy warns and gives `nan`). -/
def npMean (l : List ℚ) : ℚ := l.sum / l.length

/-- `np.var`: population variance, the mean of squared deviations. -/
def npVar (l : List ℚ) : ℚ := (l.map fun x => (x - npMean l) ^ 2).sum / l.length

/-- Banker's rounding (round half to even) to an integer, as `np.round`
rounds. -/
def roundHalfEven (x : ℚ) : ℤ :=
  let f := ⌊x⌋
  if x - f < 1/2 then f
  else if 1/2 < x - f then f + 1
  else if f % 2 = 0 then f else f + 1

/-- `np.round(x, 3)` as used on the net load (line 111). -/
def npRound3 (x : ℚ) : ℚ := (roundHalfEven (x * 1000) : ℚ) / 1000

/-- `np.count_nonzero(state[:-1] > state[1:])`: adjacent `True → False`
transitions — the per-year interruption count (lines 141, 143). -/
def countTransDown (l : List Bool) : ℕ :=
  ((l.zip l.tail).filter fun q => q.1 && !q.2).length

/-- `np.size(state) - np.count_nonzero(state)`: the number of `False`
hours — the per-year interruption duration (lines 147, 149). -/
def countFalse (l : List Bool) : ℕ := (l.filter fun b => !b).length

/-- Boolean-mask fancy-indexed sum `vals[mask].sum()`; the source's
explicit `size == 0` checks return `0`, which is also the sum of the empty
selection. -/
def maskSum (vals : List ℚ) (mask : List Bool) : ℚ :=
  (((vals.zip mask).filter fun q => q.2).map fun q => q.1).sum

/-- One simulated year's 8760-hour slice `l[8760*i : 8760*(i+1)]`. -/
def yearSlice {α : Type} (l : List α) (i : ℕ) : List α :=
  (l.drop (8760 * i)).take 8760

/-- Decidable form of one index's CoV comparison
`np.sqrt(np.var(sample)/year_counter)/np.mean(sample) > cov_convergence`
(lines 185–190), with `v = np.var(sample)`, `m = np.mean(sample)`,
`yc = year_counter`, `t = cov_convergence`; see `covGT_iff`.  A
nonpositive mean makes the comparison `t < 0` (the totalized quotient is
`0`; numpy's `nan` for the reachable all-zero sample likewise fails `> t`
for `t ≥ 0`; the NaN/`max` composition of the two indices' guards is
handled by `covIsNan`/`covMaxGT`). -/
def covGT (v m : ℚ) (yc : ℕ) (t : ℚ) : Bool :=
  if 0 < m then decide (t < 0) || decide (t ^ 2 * m ^ 2 * yc < v)
  else decide (t < 0)

theorem covGT_iff (v m t : ℚ) (yc : ℕ) (hv : 0 ≤ v) (hm : 0 ≤ m)
    (hyc : 0 < yc) :
    covGT v m yc t = true ↔
      (t : ℝ) < Real.sqrt ((v : ℝ) / (yc : ℝ)) / (m : ℝ) := by
  have hycR : (0 : ℝ) < (yc : ℝ) := by exact_mod_cast hyc
  rw [covGT]
  by_cases hmp : 0 < m
  · have hmR : (0 : ℝ) < (m : ℝ) := by exact_mod_cast hmp
    rw [if_pos hmp, lt_div_iff₀ hmR]
    simp only [Bool.or_eq_true, decide_eq_true_eq]
    by_cases ht : t < 0
    · have htm : (t : ℝ) * (m : ℝ) < 0 :=
        mul_neg_of_neg_of_pos (by exact_mod_cast ht) hmR
      constructor
      · intro _
        exact lt_of_lt_of_le htm (Real.sqrt_nonneg _)
      · intro _
        exact Or.inl ht
    · have htR : (0 : ℝ) ≤ (t : ℝ) := by exact_mod_cast not_lt.mp ht
      have htm : (0 : ℝ) ≤ (t : ℝ) * (m : ℝ) := mul_nonneg htR (le_of_lt hmR)
      rw [Real.lt_sqrt htm, lt_div_iff₀ hycR]
      have hcast : ((t : ℝ) * (m : ℝ)) ^ 2 * (yc : ℝ) < (v : ℝ) ↔
          t ^ 2 * m ^ 2 * (yc : ℚ) < v := by
        rw [show ((t : ℝ) * (m : ℝ)) ^ 2 * (yc : ℝ) =
          ((t ^ 2 * m ^ 2 * (yc : ℚ) : ℚ) : ℝ) from by push_cast; ring]
        exact Rat.cast_lt
      rw [hcast]
      constructor
      · rintro (h | h)
        · exact absurd h ht
        · exact h
      · exact Or.inr
  · have hm0 : m = 0 := le_antisymm (not_lt.mp hmp) hm
    rw [if_neg hmp, hm0, Rat.cast_zero, div_zero]
    simp only [decide_eq_true_eq]
    exact ⟨fun h => by exact_mod_cast h, fun h => by exact_mod_cast h⟩

/-- Whether one index's float CoV
`np.sqrt(np.var(sample)/year_counter)/np.mean(sample)` is IEEE NaN, with
`v = np.var(sample)`, `m = np.mean(sample)`, `yc = year_counter`: a
negative radicand makes `np.sqrt` return `nan` (and `nan/m` stays `nan`),
and a zero radicand together with a zero mean is the `0.0/0.0 = nan`
division.  A positive radicand with a zero mean gives `inf`, not NaN. -/
def covIsNan (v m : ℚ) (yc : ℕ) : Bool :=
  decide (v / (yc : ℚ) < 0) || (decide (v / (yc : ℚ) = 0) && decide (m = 0))

/-- The value of one index's float comparison `cov_x > t` when `cov_x` is
not NaN (`covIsNan` false): a positive mean is the comparison `covGT`; a
zero mean (so a positive radicand) gives `cov_x = +inf` and the comparison
holds; a negative mean makes `cov_x = sqrt(v/yc)/m ≤ 0`, and dividing the
comparison by the negative `m` flips it to `sqrt(v/yc) < t*m`, i.e.
`0 < t*m` and `v/yc < (t*m)^2`. -/
def covGTf (v m : ℚ) (yc : ℕ) (t : ℚ) : Bool :=
  if 0 < m then covGT v m yc t
  else if m = 0 then decide (0 < v / (yc : ℚ))
  else decide (0 < t * m) && decide (v < t ^ 2 * m ^ 2 * yc)

/-- The loop guard `cov > cov_convergence` with
`cov = max(cov_interruption_frequency, cov_interruption_duration)` (lines
185–190) under Python/IEEE semantics: `max(a, b)` is `b if b > a else a`
and every comparison with NaN is false, so a NaN `cov_if` survives the
`max` — the guard is false, the loop stops, no matter what `cov_id` is —
while a NaN `cov_id` is discarded by the `max` and the guard falls back to
`cov_if > t`; with both values non-NaN (finite or `+inf`),
`max(a, b) > t` holds iff `a > t` or `b > t`. -/
def covMaxGT (vI mI vD mD : ℚ) (yc : ℕ) (t : ℚ) : Bool :=
  if covIsNan vI mI yc then false
  else if covIsNan vD mD yc then covGTf vI mI yc t
  else covGTf vI mI yc t || covGTf vD mD yc t

/-- NaN poisoning of the guard on concrete values: with an all-zero
interruption-frequency sample (`var = mean = 0`, so `cov_if = nan`) the
guard `covMaxGT` is false — the loop stops — even though the
interruption-duration comparison `cov_id > t` on its own is true. -/
theorem covMaxGT_nan_poisoned :
    covMaxGT 0 0 1 1 100 (1/20) = false ∧ covGTf 1 1 100 (1/20) = true := by
  constructor
  · rw [covMaxGT]
    norm_num [covIsNan]
  · rw [covGTf, if_pos (by norm_num : (0:ℚ) < 1), covGT]
    norm_num

/-- C3, counterexample: the coefficient-of-variation computation of the
convergence loop is not special-cased on a zero mean.  For an all-zero
accumulated sample of 100 years (no interruptions observed) the mean is
`0`; the division is performed anyway — numpy computes `0.0/0.0 = nan`,
the totalized model `0` — and the loop guard `cov > 0.05` evaluates
*false*: the loop stops (treats the index as converged) instead of
treating it as not yet converged. -/
theorem cov_zero_mean_counterexample :
    npMean (List.replicate 100 (0:ℚ)) = 0 ∧
      covGT (npVar (List.replicate 100 (0:ℚ))) (npMean (List.replicate 100 (0:ℚ)))
        100 (1/20) = false ∧
      Real.sqrt ((npVar (List.replicate 100 (0:ℚ)) : ℝ) / (100 : ℝ)) /
        ((npMean (List.replicate 100 (0:ℚ))) : ℝ) = 0 := by
  have hm : npMean (List.replicate 100 (0:ℚ)) = 0 := by simp [npMean]
  have hv : npVar (List.replicate 100 (0:ℚ)) = 0 := by
    rw [npVar]
    norm_num [hm, List.map_replicate, List.sum_replicate]
  refine ⟨hm, ?_, ?_⟩
  · rw [hm, hv]
    norm_num [covGT]
  · rw [hm, hv]
    simp [Real.sqrt_zero]

/-- C3 (amended): the CoV computation performs the division by the mean
unconditionally — there is no special case for a zero mean.  Whenever the
mean of an accumulated index sample is zero, the source's CoV value
`sqrt(var(sample)/year_counter)/mean(sample)` is `0` under the totalized
division (numpy produces `nan`), and the loop guard `cov > t` is false for
every nonnegative threshold: the controller stops — it treats the index as
converged rather than as not yet converged. -/
theorem cov_zero_mean_not_special_cased (sample : List ℚ) (yc : ℕ) (t : ℚ)
    (hm : npMean sample = 0) (ht : 0 ≤ t) :
    covGT (npVar sample) (npMean sample) yc t = false ∧
      Real.sqrt ((npVar sample : ℝ) / (yc : ℝ)) / ((npMean sample) : ℝ) = 0 ∧
      ¬ ((t : ℝ) < Real.sqrt ((npVar sample : ℝ) / (yc : ℝ)) /
        ((npMean sample) : ℝ)) := by
  rw [hm]
  have h2 : Real.sqrt ((npVar sample : ℝ) / (yc : ℝ)) / ((0 : ℚ) : ℝ) = 0 := by
    rw [Rat.cast_zero, div_zero]
  refine ⟨?_, h2, ?_⟩
  · rw [covGT, if_neg (lt_irrefl 0)]
    simp [not_lt.mpr ht]
  · rw [h2]
    exact not_lt.mpr (by exact_mod_cast ht)

/-- Witness for the amended C3 at the all-zero three-year sample with
`year_counter = 100` and threshold `1/20`. -/
theorem cov_zero_mean_not_special_cased_witness :
    covGT (npVar (List.replicate 3 (0:ℚ))) (npMean (List.replicate 3 (0:ℚ)))
        100 (1/20) = false ∧
      Real.sqrt ((npVar (List.replicate 3 (0:ℚ)) : ℝ) / (100 : ℝ)) /
        ((npMean (List.replicate 3 (0:ℚ))) : ℝ) = 0 ∧
      ¬ (((1/20 : ℚ) : ℝ) < Real.sqrt ((npVar (List.replicate 3 (0:ℚ)) : ℝ) /
        (100 : ℝ)) / ((npMean (List.replicate 3 (0:ℚ))) : ℝ)) :=
  cov_zero_mean_not_special_cased (List.replicate 3 0) 100 (1/20)
    (by simp [npMean]) (by norm_num)

/-- The per-batch random draws of the grid-connected controller: the fresh
load-point renewal draws (line 101), the PV multi-state draws and the
battery renewal draws consumed by `equivalent_load` (line 103). -/
structure BatchDraws where
  lp : ℕ → ℕ × ℕ
  pv : MsmpvDraws
  bess : ℕ → ℕ × ℕ

/-- One batch's seven per-year sample arrays (lines 126–171), each of
length `years = 100`. -/
structure YearSamples where
  sIF : List ℚ
  sID : List ℚ
  sENS : List ℚ
  sEFG : List ℚ
  sIFn : List ℚ
  sIDn : List ℚ
  sENSn : List ℚ

/-- The fixed parameters of `customer_evaluation_grid_connected`; the
load-point failure/repair rates are absorbed by the per-batch draw streams
exactly as for `loadpoint_history`. -/
structure GridParams where
  covConv : ℚ
  hourly_load : ℕ → ℚ
  acm_module_rating : ℚ
  acm_failure_rate : ℚ
  acm_repair_rate : ℚ
  ghi : ℕ → ℚ
  der : String
  socMin : ℚ
  pvCap : ℚ
  bessCap : ℚ
  plimit : ℚ

/-- One iteration body of the convergence `while` loop
(src/pdrm/ceval_indices.py, lines 96–182): generate a fresh 100-year
load-point history, compose the net load through `equivalent_load`
(propagating its faults), round it to 3 decimals, derive the residence
state (`net_load ≤ 0` or load point up) and the DER-unserved sequence
(`net_load` clipped below at `0`), and reduce each of the 100 years to the
seven scalar samples. -/
def gridBatch (P : GridParams) (d : BatchDraws) : Option YearSamples :=
  let years := 100
  let lph := loadpoint_history years d.lp
  (equivalent_load P.hourly_load P.acm_module_rating P.acm_failure_rate
      P.acm_repair_rate P.ghi years P.der lph P.socMin P.pvCap P.bessCap
      P.plimit d.pv d.bess).map fun net0 =>
    let net := net0.map npRound3
    let net_load_state := net.map fun x => decide (x ≤ 0)
    let residence_state := List.zipWith (fun a b => a || b) net_load_state lph
    let ens_by_der := net.map fun x => if x < 0 then 0 else x
    { sIF := (List.range years).map fun i =>
        (countTransDown (yearSlice residence_state i) : ℚ)
      sID := (List.range years).map fun i =>
        (countFalse (yearSlice residence_state i) : ℚ)
      sENS := (List.range years).map fun i =>
        maskSum (yearSlice ens_by_der i) ((yearSlice residence_state i).map fun b => !b)
      sEFG := (List.range years).map fun i =>
        maskSum (yearSlice ens_by_der i) (yearSlice residence_state i)
      sIFn := (List.range years).map fun i =>
        (countTransDown (yearSlice lph i) : ℚ)
      sIDn := (List.range years).map fun i =>
        (countFalse (yearSlice lph i) : ℚ)
      sENSn := (List.range years).map fun i =>
        maskSum ((List.range 8760).map P.hourly_load)
          ((yearSlice lph i).map fun b => !b) }

/-- The ConvergenceAccumulator: `year_counter` and the seven growing
per-year sample arrays (lines 86–94 and 175–182). -/
structure GridAcc where
  yc : ℕ
  fI : List ℚ
  fD : List ℚ
  fE : List ℚ
  fG : List ℚ
  fIn : List ℚ
  fDn : List ℚ
  fEn : List ℚ

/-- `np.append` of one batch's samples and `year_counter += 100`. -/
def accAppend (a : GridAcc) (s : YearSamples) : GridAcc :=
  { yc := a.yc + 100
    fI := a.fI ++ s.sIF
    fD := a.fD ++ s.sID
    fE := a.fE ++ s.sENS
    fG := a.fG ++ s.sEFG
    fIn := a.fIn ++ s.sIFn
    fDn := a.fDn ++ s.sIDn
    fEn := a.fEn ++ s.sENSn }

/-- The returned index dictionary (lines 202–209). -/
structure GridIndices where
  AID : ℚ
  AIF : ℚ
  AENS : ℚ
  AEFG : ℚ
  AIFnoder : ℚ
  AIDnoder : ℚ
  AENSnoder : ℚ
  AEFGnoder : ℚ

/-- The terminal index extraction (lines 192–209): the mean of each of the
seven accumulated sample arrays — and `aefg_noder = hourly_load.sum()`
(line 200), the plain sum of the one-year load profile. -/
def finalIndices (acc : GridAcc) (hourly_load : ℕ → ℚ) : GridIndices :=
  { AID := npMean acc.fD
    AIF := npMean acc.fI
    AENS := npMean acc.fE
    AEFG := npMean acc.fG
    AIFnoder := npMean acc.fIn
    AIDnoder := npMean acc.fDn
    AENSnoder := npMean acc.fEn
    AEFGnoder := ((List.range 8760).map hourly_load).sum }

/-- The convergence `while cov > cov_convergence` loop (lines 96–190).
`g` is the guard value computed from the previous batch (initially
`cov = 1 > cov_convergence`), `b` indexes the per-batch fresh draw
streams, and `fuel` bounds the number of batches (the source loop is
unbounded until convergence); after each batch the guard becomes
`max(cov_if, cov_id) > cov_convergence` under Python/IEEE float
semantics, the test `covMaxGT` (NaN CoVs included).  Alongside the index
dictionary the final accumulator is returned as ghost output. -/
def gridLoop (P : GridParams) (draws : ℕ → BatchDraws) :
    ℕ → ℕ → GridAcc → Bool → Option (GridIndices × GridAcc)
  | 0, _, _, _ => none
  | fuel + 1, b, acc, g =>
    if g then
      match gridBatch P (draws b) with
      | none => none
      | some smp =>
        let acc2 := accAppend acc smp
        gridLoop P draws fuel (b + 1) acc2
          (covMaxGT (npVar acc2.fI) (npMean acc2.fI)
            (npVar acc2.fD) (npMean acc2.fD) acc2.yc P.covConv)
    else some (finalIndices acc P.hourly_load, acc)

/-- Embedding of `customer_evaluation_grid_connected`
(src/pdrm/ceval_indices.py, lines 85–211), with the final accumulator as
ghost output: empty sample arrays, `year_counter = 0` and the initial
`cov = 1` guard test. -/
def customer_evaluation_grid_connected (P : GridParams)
    (draws : ℕ → BatchDraws) (fuel : ℕ) : Option (GridIndices × GridAcc) :=
  gridLoop P draws fuel 0 ⟨0, [], [], [], [], [], [], []⟩
    (decide ((1 : ℚ) > P.covConv))

theorem gridLoop_shape (P : GridParams) (draws : ℕ → BatchDraws) :
    ∀ fuel b acc g res acc', gridLoop P draws fuel b acc g = some (res, acc') →
      res = finalIndices acc' P.hourly_load := by
  intro fuel
  induction fuel with
  | zero =>
    intro b acc g res acc' h
    exact absurd h (by rw [gridLoop]; simp)
  | succ m ih =>
    intro b acc g res acc' h
    rw [gridLoop] at h
    by_cases hg : g = true
    · rw [if_pos hg] at h
      split at h
      next => exact absurd h (by simp)
      next smp heq =>
        exact ih _ _ _ res acc' h
    · rw [if_neg hg, Option.some_inj, Prod.mk.injEq] at h
      rw [← h.1, ← h.2]

theorem gridLoop_stop_now (P : GridParams) (draws : ℕ → BatchDraws)
    (fuel b : ℕ) (acc : GridAcc) (g : Bool) (hg : g = false) :
    gridLoop P draws (fuel + 1) b acc g =
      some (finalIndices acc P.hourly_load, acc) := by
  rw [gridLoop, hg]
  simp

theorem finalIndices_proj (acc : GridAcc) (f : ℕ → ℚ) :
    (finalIndices acc f).AIF = npMean acc.fI ∧
      (finalIndices acc f).AID = npMean acc.fD ∧
      (finalIndices acc f).AENS = npMean acc.fE ∧
      (finalIndices acc f).AEFG = npMean acc.fG ∧
      (finalIndices acc f).AIFnoder = npMean acc.fIn ∧
      (finalIndices acc f).AIDnoder = npMean acc.fDn ∧
      (finalIndices acc f).AENSnoder = npMean acc.fEn ∧
      (finalIndices acc f).AEFGnoder = ((List.range 8760).map f).sum := by
  simp only [finalIndices]
  exact ⟨trivial, trivial, trivial, trivial, trivial, trivial, trivial, trivial⟩

set_option maxRecDepth 8000 in
/-- C4 (amended): when the convergence loop of
`customer_evaluation_grid_connected` terminates, each of the returned
indices AIF, AID, AENS, AEFG, AIF_noder, AID_noder and AENS_noder equals
the arithmetic mean of the corresponding accumulated per-year sample
array — but AEFG_noder does not: it is `hourly_load.sum()`, the total
one-year load profile, computed from no accumulated per-year samples at
all. -/
theorem grid_indices_means (P : GridParams) (draws : ℕ → BatchDraws)
    (fuel : ℕ) (res : GridIndices) (acc : GridAcc)
    (h : customer_evaluation_grid_connected P draws fuel = some (res, acc)) :
    res.AIF = npMean acc.fI ∧ res.AID = npMean acc.fD ∧
      res.AENS = npMean acc.fE ∧ res.AEFG = npMean acc.fG ∧
      res.AIFnoder = npMean acc.fIn ∧ res.AIDnoder = npMean acc.fDn ∧
      res.AENSnoder = npMean acc.fEn ∧
      res.AEFGnoder = ((List.range 8760).map P.hourly_load).sum := by
  rw [customer_evaluation_grid_connected] at h
  have hs := gridLoop_shape P draws fuel 0 ⟨0, [], [], [], [], [], [], []⟩
    (decide ((1 : ℚ) > P.covConv)) res acc h
  rw [hs]
  exact finalIndices_proj acc P.hourly_load

/-- Modelled from the spec: the per-year no-DER energy drawn from the grid,
the sample that `AEFG_noder` would have to average were it — as claimed —
the mean of accumulated per-year values.  `ceval_indices.py` accumulates no
such array (the missing piece this definition models); following §4.5 of
the spec, the no-DER baseline is computed directly from the load-point
availability sequence and the raw load, and without DER the grid serves
exactly the load over the hours the load point is up. -/
def sample_efg_noder_spec (lpYear : List Bool) (hourly_load : ℕ → ℚ) : ℚ :=
  maskSum ((List.range 8760).map hourly_load) lpYear

set_option maxRecDepth 8000 in
/-- C4, counterexample: a terminated run of the grid-connected controller
in which the returned `AEFG_noder` is not the mean of the accumulated
per-year no-DER energy-from-grid samples.  With threshold `1` the initial
`cov = 1 > cov_convergence` test is false, so the loop exits at once with
`year_counter = 0` and empty accumulators; zero years were simulated, so
the accumulated per-year sample list is empty (of mean `0`) for any
load-point history, yet the controller returns
`AEFG_noder = hourly_load.sum() = 8760` for the constant unit load. -/
theorem aefg_noder_not_mean_counterexample :
    ∃ res acc,
      customer_evaluation_grid_connected
          ⟨1, fun _ => 1, 1, 1, 1, fun _ => 1, "pv_bess", 0, 1, 1, 1⟩
          (fun _ => ⟨fun _ => (0, 0), ⟨fun _ => 1/2, fun _ => 0⟩, fun _ => (0, 0)⟩)
          1 = some (res, acc) ∧
        acc.yc = 0 ∧
        ((List.range acc.yc).map fun i =>
          sample_efg_noder_spec (yearSlice (List.replicate 876000 true) i)
            fun _ => (1 : ℚ)) = [] ∧
        res.AEFGnoder = 8760 ∧
        res.AEFGnoder ≠ npMean ((List.range acc.yc).map fun i =>
          sample_efg_noder_spec (yearSlice (List.replicate 876000 true) i)
            fun _ => (1 : ℚ)) := by
  have h1 : ((finalIndices ⟨0, [], [], [], [], [], [], []⟩
      ((⟨1, fun _ => 1, 1, 1, 1, fun _ => 1, "pv_bess", 0, 1, 1,
        1⟩ : GridParams).hourly_load)).AEFGnoder) = 8760 := by
    simp only [finalIndices]
    rw [List.map_const', List.sum_replicate, List.length_range]
    norm_num
  refine ⟨finalIndices ⟨0, [], [], [], [], [], [], []⟩
      ((⟨1, fun _ => 1, 1, 1, 1, fun _ => 1, "pv_bess", 0, 1, 1,
        1⟩ : GridParams).hourly_load),
    ⟨0, [], [], [], [], [], [], []⟩, ?_, rfl, rfl, h1, ?_⟩
  · rw [customer_evaluation_grid_connected]
    exact gridLoop_stop_now _ _ 0 0 _ _
      (decide_eq_false (by show ¬ ((1 : ℚ) > 1); norm_num))
  · rw [h1]
    show (8760 : ℚ) ≠ npMean []
    rw [npMean]
    norm_num

set_option maxRecDepth 8000 in
/-- Witness for the amended C4 at a terminating run (threshold `1`, unit
load, so the loop exits on the initial guard test). -/
theorem grid_indices_means_witness :
    ∃ res acc,
      customer_evaluation_grid_connected
          ⟨1, fun _ => 1, 1, 1, 1, fun _ => 1, "pv_bess", 0, 1, 1, 1⟩
          (fun _ => ⟨fun _ => (0, 0), ⟨fun _ => 1/2, fun _ => 0⟩, fun _ => (0, 0)⟩)
          1 = some (res, acc) ∧
        res.AIF = npMean acc.fI ∧ res.AID = npMean acc.fD ∧
        res.AENS = npMean acc.fE ∧ res.AEFG = npMean acc.fG ∧
        res.AIFnoder = npMean acc.fIn ∧ res.AIDnoder = npMean acc.fDn ∧
        res.AENSnoder = npMean acc.fEn ∧
        res.AEFGnoder = ((List.range 8760).map
          (⟨1, fun _ => 1, 1, 1, 1, fun _ => 1, "pv_bess", 0, 1, 1,
            1⟩ : GridParams).hourly_load).sum := by
  have hrun : customer_evaluation_grid_connected
      ⟨1, fun _ => 1, 1, 1, 1, fun _ => 1, "pv_bess", 0, 1, 1, 1⟩
      (fun _ => ⟨fun _ => (0, 0), ⟨fun _ => 1/2, fun _ => 0⟩, fun _ => (0, 0)⟩)
      1 = some (finalIndices ⟨0, [], [], [], [], [], [], []⟩
        ((⟨1, fun _ => 1, 1, 1, 1, fun _ => 1, "pv_bess", 0, 1, 1,
          1⟩ : GridParams).hourly_load),
        ⟨0, [], [], [], [], [], [], []⟩) := by
    rw [customer_evaluation_grid_connected]
    exact gridLoop_stop_now _ _ 0 0 _ _
      (decide_eq_false (by show ¬ ((1 : ℚ) > 1); norm_num))
  exact ⟨_, _, hrun, grid_indices_means _ _ 1 _ _ hrun⟩

/-! ### C5 machinery: reachable-state invariants of the convergence loop -/

/-- Invariant of every accumulator the grid-connected convergence loop
reaches: the interruption-frequency and -duration sample arrays hold one
(nonnegative) entry per simulated year, and the years come in whole
100-year batches. -/
def GridInv (acc : GridAcc) : Prop :=
  acc.fI.length = acc.yc ∧ acc.fD.length = acc.yc ∧
    (∀ x ∈ acc.fI, 0 ≤ x) ∧ (∀ x ∈ acc.fD, 0 ≤ x) ∧ ∃ k, acc.yc = 100 * k

/-- The source-form stop condition: neither accumulated index's
coefficient of variation `sqrt(var(sample)/year_counter)/mean(sample)`
exceeds the convergence threshold. -/
def CovStopped (P : GridParams) (acc : GridAcc) : Prop :=
  ¬ ((P.covConv : ℝ) < Real.sqrt ((npVar acc.fI : ℝ) / (acc.yc : ℝ)) /
      (npMean acc.fI : ℝ)) ∧
    ¬ ((P.covConv : ℝ) < Real.sqrt ((npVar acc.fD : ℝ) / (acc.yc : ℝ)) /
      (npMean acc.fD : ℝ))

/-- The condition under which the grid-connected loop actually stops,
following the Python/IEEE float semantics of
`max(cov_if, cov_id) > cov_convergence` on the (nonnegative) accumulated
samples: either the interruption-frequency mean is zero (its CoV is the
NaN `0.0/0.0`, which survives the `max` and fails `>`, whatever `cov_id`
is), or the interruption-duration mean is zero (its NaN CoV is discarded
by the `max`) and the interruption-frequency CoV does not exceed the
threshold, or both CoVs are non-NaN and neither exceeds the threshold
(`CovStopped`). -/
def StopReason (P : GridParams) (acc : GridAcc) : Prop :=
  npMean acc.fI = 0 ∨
    (npMean acc.fD = 0 ∧
      ¬ ((P.covConv : ℝ) < Real.sqrt ((npVar acc.fI : ℝ) / (acc.yc : ℝ)) /
        (npMean acc.fI : ℝ))) ∨
    CovStopped P acc

theorem covIsNan_true (v m : ℚ) (yc : ℕ) (hv : 0 ≤ v)
    (h : covIsNan v m yc = true) : m = 0 := by
  rw [covIsNan] at h
  have hq : 0 ≤ v / (yc : ℚ) := div_nonneg hv (Nat.cast_nonneg _)
  simp only [Bool.or_eq_true, Bool.and_eq_true, decide_eq_true_eq] at h
  rcases h with h | ⟨_, h⟩
  · exact absurd h (not_lt.mpr hq)
  · exact h

theorem covGTf_false (v m t : ℚ) (yc : ℕ) (hv : 0 ≤ v) (hm : 0 ≤ m)
    (hyc : 0 < yc) (hnan : covIsNan v m yc = false)
    (hf : covGTf v m yc t = false) :
    ¬ ((t : ℝ) < Real.sqrt ((v : ℝ) / (yc : ℝ)) / (m : ℝ)) := by
  by_cases hmp : 0 < m
  · rw [covGTf, if_pos hmp] at hf
    intro hlt
    have := (covGT_iff v m t yc hv hm hyc).mpr hlt
    rw [hf] at this
    exact Bool.false_ne_true this
  · have hm0 : m = 0 := le_antisymm (not_lt.mp hmp) hm
    rw [covGTf, if_neg hmp, if_pos hm0] at hf
    have h1 : ¬ (0 < v / (yc : ℚ)) := of_decide_eq_false hf
    have hq : 0 ≤ v / (yc : ℚ) := div_nonneg hv (Nat.cast_nonneg _)
    have h0 : v / (yc : ℚ) = 0 := le_antisymm (not_lt.mp h1) hq
    rw [covIsNan, h0, hm0] at hnan
    simp at hnan

theorem npMean_nonneg (l : List ℚ) (h : ∀ x ∈ l, 0 ≤ x) : 0 ≤ npMean l :=
  div_nonneg (List.sum_nonneg h) (Nat.cast_nonneg _)

theorem npVar_nonneg (l : List ℚ) : 0 ≤ npVar l := by
  apply div_nonneg _ (Nat.cast_nonneg _)
  apply List.sum_nonneg
  intro x hx
  obtain ⟨y, _, hy⟩ := List.mem_map.mp hx
  rw [← hy]
  positivity

theorem gridBatch_inv (P : GridParams) (d : BatchDraws) (smp : YearSamples)
    (h : gridBatch P d = some smp) :
    smp.sIF.length = 100 ∧ smp.sID.length = 100 ∧
      (∀ x ∈ smp.sIF, 0 ≤ x) ∧ (∀ x ∈ smp.sID, 0 ≤ x) := by
  rw [gridBatch, Option.map_eq_some'] at h
  obtain ⟨net0, hnet, hsmp⟩ := h
  subst hsmp
  refine ⟨by simp, by simp, ?_, ?_⟩ <;>
  · intro x hx
    simp only [List.mem_map] at hx
    obtain ⟨i, _, hix⟩ := hx
    rw [← hix]
    positivity

theorem gridLoop_stop (P : GridParams) (draws : ℕ → BatchDraws) :
    ∀ fuel b acc g, GridInv acc → (g = false → StopReason P acc) →
      ∀ res acc', gridLoop P draws fuel b acc g = some (res, acc') →
        GridInv acc' ∧ StopReason P acc' := by
  intro fuel
  induction fuel with
  | zero =>
    intro b acc g _ _ res acc' h
    exact absurd h (by rw [gridLoop]; simp)
  | succ m ih =>
    intro b acc g hinv hg res acc' h
    rw [gridLoop] at h
    by_cases hgt : g = true
    · rw [if_pos hgt] at h
      split at h
      next => exact absurd h (by simp)
      next smp heq =>
        obtain ⟨hl1, hl2, hn1, hn2⟩ := gridBatch_inv P (draws b) smp heq
        obtain ⟨al1, al2, an1, an2, k, hk⟩ := hinv
        have hinv2 : GridInv (accAppend acc smp) := by
          refine ⟨?_, ?_, ?_, ?_, k + 1, ?_⟩
          · simp [accAppend, al1, hl1, hk]
          · simp [accAppend, al2, hl2, hk]
          · intro x hx
            rcases List.mem_append.mp hx with hx | hx
            exacts [an1 x hx, hn1 x hx]
          · intro x hx
            rcases List.mem_append.mp hx with hx | hx
            exacts [an2 x hx, hn2 x hx]
          · simp only [accAppend, hk]
            ring
        refine ih (b + 1) (accAppend acc smp) _ hinv2 ?_ res acc' h
        intro hg2
        have hyc : 0 < (accAppend acc smp).yc := by
          simp [accAppend]
        by_cases hnI : covIsNan (npVar (accAppend acc smp).fI)
            (npMean (accAppend acc smp).fI) (accAppend acc smp).yc = true
        · exact Or.inl (covIsNan_true _ _ _ (npVar_nonneg _) hnI)
        · have hnI' := Bool.eq_false_iff.mpr hnI
          rw [covMaxGT, if_neg hnI] at hg2
          by_cases hnD : covIsNan (npVar (accAppend acc smp).fD)
              (npMean (accAppend acc smp).fD) (accAppend acc smp).yc = true
          · rw [if_pos hnD] at hg2
            exact Or.inr (Or.inl
              ⟨covIsNan_true _ _ _ (npVar_nonneg _) hnD,
                covGTf_false _ _ _ _ (npVar_nonneg _)
                  (npMean_nonneg _ hinv2.2.2.1) hyc hnI' hg2⟩)
          · have hnD' := Bool.eq_false_iff.mpr hnD
            rw [if_neg hnD, Bool.or_eq_false_iff] at hg2
            exact Or.inr (Or.inr
              ⟨covGTf_false _ _ _ _ (npVar_nonneg _)
                  (npMean_nonneg _ hinv2.2.2.1) hyc hnI' hg2.1,
                covGTf_false _ _ _ _ (npVar_nonneg _)
                  (npMean_nonneg _ hinv2.2.2.2.1) hyc hnD' hg2.2⟩)
    · rw [if_neg hgt, Option.some_inj, Prod.mk.injEq] at h
      have hgf : g = false := by
        cases g
        · rfl
        · exact absurd rfl hgt
      rw [← h.2]
      exact ⟨hinv, hg hgf⟩

set_option maxRecDepth 8000 in
/-- C5 (the grid-connected controller; the standalone controller's loop
body is unreachable — its `equivalent_load(peak_load=...)` call raises
`TypeError`, see the results entry): every batch of
`customer_evaluation_grid_connected` simulates exactly 100 years from the
fresh per-batch draw streams, so any terminal accumulator carries
`year_counter = 100 * batches` per-year samples of each convergence index;
and the loop has stopped under `StopReason`, the guard
`max(cov_if, cov_id) > cov_convergence` evaluated with Python/IEEE float
semantics.  That is weaker than the claim's "max CoV ≤ threshold": a zero
interruption-frequency mean makes `cov_if` NaN, `max` keeps the NaN, and
the loop stops even if `cov_id` still exceeds the threshold; only when
both CoVs are non-NaN is the stop condition the claimed `CovStopped`. -/
theorem grid_convergence_stop (P : GridParams) (draws : ℕ → BatchDraws)
    (fuel : ℕ) (res : GridIndices) (acc : GridAcc)
    (h : customer_evaluation_grid_connected P draws fuel = some (res, acc)) :
    (∃ k, acc.yc = 100 * k) ∧ acc.fI.length = acc.yc ∧
      acc.fD.length = acc.yc ∧ StopReason P acc := by
  rw [customer_evaluation_grid_connected] at h
  have h0 : GridInv ⟨0, [], [], [], [], [], [], []⟩ :=
    ⟨rfl, rfl, by simp, by simp, 0, rfl⟩
  have hg0 : decide ((1 : ℚ) > P.covConv) = false →
      StopReason P ⟨0, [], [], [], [], [], [], []⟩ :=
    fun _ => Or.inl (by simp [npMean])
  obtain ⟨⟨l1, l2, _, _, hk⟩, hcov⟩ :=
    gridLoop_stop P draws fuel 0 ⟨0, [], [], [], [], [], [], []⟩
      (decide ((1 : ℚ) > P.covConv)) h0 hg0 res acc h
  exact ⟨hk, l1, l2, hcov⟩

set_option maxRecDepth 8000 in
/-- Witness for the grid-connected C5 theorem at the immediately
terminating threshold-1 run (zero batches, zero years, converged at the
initial guard). -/
theorem grid_convergence_stop_witness :
    ∃ res acc,
      customer_evaluation_grid_connected
          ⟨1, fun _ => 2, 1, 1, 1, fun _ => 1, "pv_bess", 0, 1, 1, 1⟩
          (fun _ => ⟨fun _ => (1, 1), ⟨fun _ => 1/2, fun _ => 1⟩, fun _ => (1, 1)⟩)
          1 = some (res, acc) ∧
        (∃ k, acc.yc = 100 * k) ∧ acc.fI.length = acc.yc ∧
        acc.fD.length = acc.yc ∧
        StopReason ⟨1, fun _ => 2, 1, 1, 1, fun _ => 1, "pv_bess", 0, 1, 1, 1⟩ acc := by
  have hrun : customer_evaluation_grid_connected
      ⟨1, fun _ => 2, 1, 1, 1, fun _ => 1, "pv_bess", 0, 1, 1, 1⟩
      (fun _ => ⟨fun _ => (1, 1), ⟨fun _ => 1/2, fun _ => 1⟩, fun _ => (1, 1)⟩)
      1 = some (finalIndices ⟨0, [], [], [], [], [], [], []⟩
        ((⟨1, fun _ => 2, 1, 1, 1, fun _ => 1, "pv_bess", 0, 1, 1,
          1⟩ : GridParams).hourly_load),
        ⟨0, [], [], [], [], [], [], []⟩) := by
    rw [customer_evaluation_grid_connected]
    exact gridLoop_stop_now _ _ 0 0 _ _
      (decide_eq_false (by show ¬ ((1 : ℚ) > 1); norm_num))
  exact ⟨_, _, hrun, grid_convergence_stop _ _ 1 _ _ hrun⟩
